import Mathlib

set_option maxHeartbeats 1000000

namespace DispS1

/-! ## JSON-like parameter records and the deep merge `_nested_update`
(src/disp_s1/pge_runconfig.py, lines 506-512).

A parameter document is a JSON-style value: either a scalar or an object
(a Python dict, modelled as an insertion-ordered association list). -/

inductive JValue where
  | scalar : Int → JValue
  | obj : List (String × JValue) → JValue

/-- First-occurrence lookup in an association list (Python dict indexing for
the duplicate-free case). -/
def lookupKey : List (String × JValue) → String → Option JValue
  | [], _ => none
  | (k', v) :: rest, k => if k' = k then some v else lookupKey rest k

/-- Python `base.get(k, default)` on a dict. -/
def getDKey (entries : List (String × JValue)) (k : String) (d : JValue) : JValue :=
  (lookupKey entries k).getD d

/-- Python `base[k] = v` on a dict: replace the value at the first occurrence
of the key in insertion order, or append the pair at the end when absent. -/
def setKey : List (String × JValue) → String → JValue → List (String × JValue)
  | [], k, v => [(k, v)]
  | (k', v') :: rest, k, v =>
    if k' = k then (k', v) :: rest else (k', v') :: setKey rest k v

/-- The exceptions Python raises when `_nested_update` recurses into a
non-dict `base`: `AttributeError` from `base.get(...)` when the pending
override value is itself a dict, `TypeError` from `base[k] = v` when it is a
scalar. -/
inductive PyErr where
  | attributeError
  | typeError
deriving DecidableEq, Repr

mutual

/-- Shallow embedding of `_nested_update(base, updates)`
(pge_runconfig.py lines 506-512):

    for k, v in updates.items():
        if isinstance(v, dict):
            base[k] = _nested_update(base.get(k, {}), v)
        else:
            base[k] = v
    return base

The loop over `updates.items()` is the list recursion; the body of one
iteration is `applyOne`. The recursion may be entered with a scalar `base`
(from `base.get(k, {})` when the base held a scalar at `k`); Python then
raises at the first processed item. The pure rendering returns the final
value of the mutated dict. -/
def nestedUpdate (base : JValue) : List (String × JValue) → Except PyErr JValue
  | [] => .ok base
  | (k, v) :: rest =>
    match applyOne base k v with
    | .error e => .error e
    | .ok newBase => nestedUpdate newBase rest
  termination_by structural us => us

/-- One iteration of the `_nested_update` loop: process item `(k, v)` of
`updates` against `base`. A dict value recurses through `base.get(k, {})`
(raising `AttributeError` when `base` is a scalar); a scalar value executes
`base[k] = v` (raising `TypeError` when `base` is a scalar). -/
def applyOne (base : JValue) (k : String) : JValue → Except PyErr JValue
  | .scalar n =>
    match base with
    | .scalar _ => .error .typeError
    | .obj bentries => .ok (.obj (setKey bentries k (.scalar n)))
  | .obj ventries =>
    match base with
    | .scalar _ => .error .attributeError
    | .obj bentries =>
      match nestedUpdate (getDKey bentries k (.obj [])) ventries with
      | .error e => .error e
      | .ok newV => .ok (.obj (setKey bentries k newV))
  termination_by structural v => v

end

mutual

/-- Well-formedness of an override value: every object reachable inside it
has pairwise-distinct keys, as is automatic for a document parsed from JSON
into Python dicts. -/
def valueWF : JValue → Bool
  | .scalar _ => true
  | .obj entries => entriesWF entries
  termination_by structural v => v

/-- Well-formedness of an object's entry list: keys are pairwise distinct at
this level and every nested value is well-formed. -/
def entriesWF : List (String × JValue) → Bool
  | [] => true
  | (k, v) :: rest =>
    valueWF v && rest.all (fun p => decide (p.1 ≠ k)) && entriesWF rest
  termination_by structural es => es

end

/-! ### Association-list lemmas for the merge -/

theorem lookupKey_setKey_self (es : List (String × JValue)) (k : String) (w : JValue) :
    lookupKey (setKey es k w) k = some w := by
  induction es with
  | nil => simp [setKey, lookupKey]
  | cons p rest ih =>
    obtain ⟨k', v'⟩ := p
    by_cases hk : k' = k
    · simp [setKey, hk, lookupKey]
    · simp [setKey, hk, lookupKey, ih]

theorem lookupKey_setKey_ne (es : List (String × JValue)) (k' k : String) (w : JValue)
    (h : k' ≠ k) : lookupKey (setKey es k' w) k = lookupKey es k := by
  induction es with
  | nil => simp [setKey, lookupKey, h]
  | cons p rest ih =>
    obtain ⟨k0, v0⟩ := p
    by_cases hk : k0 = k'
    · subst hk
      simp [setKey, lookupKey, h]
    · simp [setKey, hk, lookupKey, ih]

theorem setKey_of_lookupKey_eq (es : List (String × JValue)) (k : String) (w : JValue)
    (h : lookupKey es k = some w) : setKey es k w = es := by
  induction es with
  | nil => simp [lookupKey] at h
  | cons p rest ih =>
    obtain ⟨k0, v0⟩ := p
    by_cases hk : k0 = k
    · subst hk
      simp [lookupKey] at h
      simp [setKey, h]
    · simp [lookupKey, hk] at h
      simp [setKey, hk, ih h]

/-- When a merge step succeeds on a dict base, the new base is the old one
with one key set. -/
theorem applyOne_ok_obj (es : List (String × JValue)) (k : String) (v nb : JValue)
    (h : applyOne (.obj es) k v = .ok nb) : ∃ w, nb = .obj (setKey es k w) := by
  cases v with
  | scalar n =>
    simp [applyOne] at h
    exact ⟨.scalar n, h.symm⟩
  | obj ventries =>
    simp only [applyOne] at h
    cases hinner : nestedUpdate (getDKey es k (.obj [])) ventries with
    | error e => rw [hinner] at h; simp at h
    | ok w => rw [hinner] at h; simp at h; exact ⟨w, h.symm⟩

/-- A merge that starts from a dict and succeeds ends at a dict. -/
theorem nestedUpdate_obj_shape (us : List (String × JValue)) :
    ∀ (es : List (String × JValue)) (m : JValue),
      nestedUpdate (.obj es) us = .ok m → ∃ es', m = .obj es' := by
  induction us with
  | nil =>
    intro es m h
    simp [nestedUpdate] at h
    exact ⟨es, h.symm⟩
  | cons p rest ih =>
    intro es m h
    obtain ⟨k, v⟩ := p
    simp only [nestedUpdate] at h
    cases happ : applyOne (.obj es) k v with
    | error e => rw [happ] at h; simp at h
    | ok nb =>
      rw [happ] at h
      simp only at h
      obtain ⟨w, rfl⟩ := applyOne_ok_obj es k v nb happ
      exact ih _ m h

/-- Keys not named by any item of the override keep their value across the
merge. -/
theorem nestedUpdate_lookup_untouched (us : List (String × JValue)) (k0 : String) :
    ∀ (es es' : List (String × JValue)),
      (∀ p ∈ us, p.1 ≠ k0) →
      nestedUpdate (.obj es) us = .ok (.obj es') →
      lookupKey es' k0 = lookupKey es k0 := by
  induction us with
  | nil =>
    intro es es' _ h
    simp [nestedUpdate] at h
    rw [h]
  | cons p rest ih =>
    intro es es' hk h
    obtain ⟨k, v⟩ := p
    simp only [nestedUpdate] at h
    cases happ : applyOne (.obj es) k v with
    | error e => rw [happ] at h; simp at h
    | ok nb =>
      rw [happ] at h
      simp only at h
      obtain ⟨w, rfl⟩ := applyOne_ok_obj es k v nb happ
      have hne : k ≠ k0 := hk (k, v) (List.mem_cons_self _ _)
      have := ih (setKey es k w) es' (fun p hp => hk p (List.mem_cons_of_mem _ hp)) h
      rw [this, lookupKey_setKey_ne es k k0 w hne]

/-- Idempotence of `_nested_update` for override documents with
duplicate-free keys: merging the same override a second time is a no-op. -/
theorem nestedUpdate_idem (us : List (String × JValue)) (base m : JValue)
    (hwf : entriesWF us = true) (h : nestedUpdate base us = .ok m) :
    nestedUpdate m us = .ok m := by
  match us with
  | [] =>
    simp only [nestedUpdate, Except.ok.injEq] at h
    subst h
    rfl
  | (k, JValue.scalar n) :: rest =>
    have hwf' := hwf
    simp only [entriesWF, valueWF, Bool.true_and, Bool.and_eq_true,
      List.all_eq_true, decide_eq_true_eq] at hwf'
    obtain ⟨hall, hwfrest⟩ := hwf'
    have hkrest : ∀ p ∈ rest, p.1 ≠ k := fun p hp => hall p hp
    simp only [nestedUpdate] at h
    cases happ : applyOne base k (.scalar n) with
    | error e => rw [happ] at h; simp at h
    | ok nb =>
      rw [happ] at h
      simp only at h
      cases base with
      | scalar n0 => simp [applyOne] at happ
      | obj es =>
        simp only [applyOne, Except.ok.injEq] at happ
        subst happ
        obtain ⟨es', rfl⟩ := nestedUpdate_obj_shape rest (setKey es k (.scalar n)) m h
        have hlook : lookupKey es' k = some (.scalar n) := by
          rw [nestedUpdate_lookup_untouched rest k (setKey es k (.scalar n)) es' hkrest h]
          exact lookupKey_setKey_self es k (.scalar n)
        have hset : setKey es' k (.scalar n) = es' :=
          setKey_of_lookupKey_eq es' k (.scalar n) hlook
        simp only [nestedUpdate, applyOne]
        rw [hset]
        exact nestedUpdate_idem rest (.obj (setKey es k (.scalar n))) (.obj es') hwfrest h
  | (k, JValue.obj ventries) :: rest =>
    have hwf' := hwf
    simp only [entriesWF, valueWF, Bool.and_eq_true,
      List.all_eq_true, decide_eq_true_eq] at hwf'
    obtain ⟨⟨hwfv, hall⟩, hwfrest⟩ := hwf'
    have hkrest : ∀ p ∈ rest, p.1 ≠ k := fun p hp => hall p hp
    simp only [nestedUpdate] at h
    cases happ : applyOne base k (.obj ventries) with
    | error e => rw [happ] at h; simp at h
    | ok nb =>
      rw [happ] at h
      simp only at h
      cases base with
      | scalar n0 => simp [applyOne] at happ
      | obj es =>
        simp only [applyOne] at happ
        cases hinner : nestedUpdate (getDKey es k (.obj [])) ventries with
        | error e => rw [hinner] at happ; simp at happ
        | ok w =>
          rw [hinner] at happ
          simp only [Except.ok.injEq] at happ
          subst happ
          obtain ⟨es', rfl⟩ := nestedUpdate_obj_shape rest (setKey es k w) m h
          have hlook : lookupKey es' k = some w := by
            rw [nestedUpdate_lookup_untouched rest k (setKey es k w) es' hkrest h]
            exact lookupKey_setKey_self es k w
          have hset : setKey es' k w = es' := setKey_of_lookupKey_eq es' k w hlook
          have hidem : nestedUpdate w ventries = .ok w :=
            nestedUpdate_idem ventries (getDKey es k (.obj [])) w hwfv hinner
          simp only [nestedUpdate, applyOne, getDKey, hlook, Option.getD_some]
          rw [hidem]
          simp only
          rw [hset]
          exact nestedUpdate_idem rest (.obj (setKey es k w)) (.obj es') hwfrest h
termination_by sizeOf us
decreasing_by
  all_goals simp_wf <;> omega

/-- C3 counterexample: the merge does not validate shape conflicts.
With a nested override over a scalar base value, `_nested_update` fails with
Python's generic `AttributeError` (when the nested override's conflicting
item is itself a record) or `TypeError` (when it is a scalar) — not a
`ConfigError`; and in the reverse conflict a scalar override silently
replaces a nested base record without any error. -/
theorem nested_update_no_config_error_counterexample :
    nestedUpdate (.obj [("a", .scalar 1)])
        [("a", .obj [("b", .obj [("c", .scalar 2)])])] =
      .error .attributeError
    ∧ nestedUpdate (.obj [("a", .scalar 1)]) [("a", .obj [("b", .scalar 2)])] =
      .error .typeError
    ∧ nestedUpdate (.obj [("a", .obj [("b", .scalar 2)])]) [("a", .scalar 7)] =
      .ok (.obj [("a", .scalar 7)]) :=
  ⟨rfl, rfl, rfl⟩

/-- C3 (amended): for every base record holding a scalar at key `k`, an
override mapping `k` to a non-empty nested record makes `_nested_update`
fail with Python's `TypeError` or `AttributeError` (depending on the shape
of the nested record's first item), not with an explicit-validation
`ConfigError`; and for every base record holding a nested record at `k`, a
scalar override at `k` silently replaces the record. -/
theorem nested_update_shape_conflict_behavior
    (es bs : List (String × JValue)) (k k2 : String) (n m0 : Int)
    (v2 : JValue) (vrest ds : List (String × JValue))
    (hscalar : lookupKey es k = some (.scalar n))
    (hdict : lookupKey bs k = some (.obj ds)) :
    nestedUpdate (.obj es) [(k, .obj ((k2, v2) :: vrest))] =
      .error (match v2 with
              | .scalar _ => PyErr.typeError
              | .obj _ => PyErr.attributeError)
    ∧ nestedUpdate (.obj bs) [(k, .scalar m0)] =
      .ok (.obj (setKey bs k (.scalar m0))) := by
  constructor
  · cases v2 with
    | scalar n2 =>
      simp [nestedUpdate, applyOne, getDKey, hscalar]
    | obj ves2 =>
      simp [nestedUpdate, applyOne, getDKey, hscalar]
  · simp [nestedUpdate, applyOne]

/-- C3 witness for `nested_update_shape_conflict_behavior` at a concrete
base/override pair. -/
theorem nested_update_shape_conflict_behavior_witness :
    nestedUpdate (.obj [("a", .scalar 1)]) [("a", .obj [("b", .scalar 2)])] =
      .error PyErr.typeError
    ∧ nestedUpdate (.obj [("a", .obj [("y", .scalar 3)])]) [("a", .scalar 7)] =
      .ok (.obj (setKey [("a", .obj [("y", .scalar 3)])] "a" (.scalar 7))) :=
  nested_update_shape_conflict_behavior
    [("a", .scalar 1)] [("a", .obj [("y", .scalar 3)])] "a" "b" 1 7
    (.scalar 2) [] [("y", .scalar 3)] rfl rfl

/-- C7: the parameter deep merge `_nested_update` is idempotent: whenever
merging override document `ov` (a record, so with duplicate-free keys at
every level) into `base` succeeds with result `m`, merging `ov` into `m`
again returns `m` unchanged. -/
theorem nested_update_idempotent (base m : JValue) (ov : List (String × JValue))
    (hwf : entriesWF ov = true) (h : nestedUpdate base ov = .ok m) :
    nestedUpdate m ov = .ok m :=
  nestedUpdate_idem ov base m hwf h

/-- C7 witness: idempotence at a concrete base and override document. -/
theorem nested_update_idempotent_witness :
    entriesWF [("a", JValue.obj [("b", JValue.scalar 2)]), ("d", JValue.scalar 9)] = true
    ∧ nestedUpdate (.obj [("a", .obj [("c", .scalar 1)])])
        [("a", .obj [("b", .scalar 2)]), ("d", .scalar 9)] =
      .ok (.obj [("a", .obj [("c", .scalar 1), ("b", .scalar 2)]), ("d", .scalar 9)])
    ∧ nestedUpdate (.obj [("a", .obj [("c", .scalar 1), ("b", .scalar 2)]), ("d", .scalar 9)])
        [("a", .obj [("b", .scalar 2)]), ("d", .scalar 9)] =
      .ok (.obj [("a", .obj [("c", .scalar 1), ("b", .scalar 2)]), ("d", .scalar 9)]) :=
  ⟨rfl, rfl,
    nested_update_idempotent
      (.obj [("a", .obj [("c", .scalar 1)])])
      (.obj [("a", .obj [("c", .scalar 1), ("b", .scalar 2)]), ("d", .scalar 9)])
      [("a", .obj [("b", .scalar 2)]), ("d", .scalar 9)] rfl rfl⟩

/-! ## Reference-date resolution (src/disp_s1/pge_runconfig.py, lines 424-474)

The resolver works on the per-burst acquisition timeline: the sorted list of
acquisition dates of one representative burst together with the
compressed-SLC flag derived from the file name. Dates are modelled as
integers (any order-embedding of calendar dates). -/

/-- One timeline entry: acquisition date and whether the file is a
compressed SLC (`"compressed" in stem`). -/
structure Acquisition where
  date : Int
  isCompressed : Bool
deriving DecidableEq, Repr

/-- Shallow embedding of `_get_first_after_selected(input_dates,
selected_date)` (pge_runconfig.py lines 424-433): index of the first date
`>=` the selected date, or `-1` when every date precedes it. -/
def getFirstAfterSelected : List Int → Int → Int
  | [], _ => -1
  | d :: rest, selectedDate =>
    if selectedDate ≤ d then 0
    else if getFirstAfterSelected rest selectedDate = -1 then -1
    else getFirstAfterSelected rest selectedDate + 1

/-- One iteration of the `for ref_date in reference_dates` loop of
`_compute_reference_dates` (pge_runconfig.py lines 452-472), acting on the
state `(output_reference_idx, extra_reference_date)`. -/
def computeReferenceDatesStep (inputDates : List Int) (isCompressed : List Bool)
    (st : Nat × Option Int) (refDate : Int) : Nat × Option Int :=
  let candidateDates := inputDates.filter (fun d => decide (refDate ≤ d))
  if candidateDates.isEmpty then st
  else
    let nearestIdx := getFirstAfterSelected inputDates refDate
    if nearestIdx = 0 then st
    else if isCompressed.getD nearestIdx.toNat false then (nearestIdx.toNat, st.2)
    else
      let inpDate := inputDates.getD nearestIdx.toNat 0
      if refDate ≤ inpDate then (st.1, some inpDate) else st

/-- Ascending insertion skipping duplicates: building block of Python's
`sorted({...})` over dates. -/
def insertDedup (x : Int) : List Int → List Int
  | [] => [x]
  | y :: ys =>
    if x = y then y :: ys
    else if x < y then x :: y :: ys
    else y :: insertDedup x ys

/-- Python `sorted(set(xs))`: the ascending duplicate-free enumeration. -/
def sortedDedup (xs : List Int) : List Int := xs.foldr insertDedup []

/-- Shallow embedding of `_compute_reference_dates(reference_datetimes,
cslc_file_list)` (pge_runconfig.py lines 436-474) from the point where the
representative burst's timeline (`input_dates`, `is_compressed`) has been
derived: fold the loop body over the sorted deduplicated requested dates,
starting from `output_reference_idx = 0`, `extra_reference_date = None`. -/
def computeReferenceDates (timeline : List Acquisition) (referenceDates : List Int) :
    Nat × Option Int :=
  let inputDates := timeline.map (fun a => a.date)
  let isCompressed := timeline.map (fun a => a.isCompressed)
  (sortedDedup referenceDates).foldl (computeReferenceDatesStep inputDates isCompressed)
    (0, none)

/-! ### Lemmas about the first-index scan -/

theorem getFirstAfterSelected_cases (inputDates : List Int) (sel : Int) :
    getFirstAfterSelected inputDates sel = -1
    ∨ ∃ i : Nat, getFirstAfterSelected inputDates sel = (i : Int) := by
  induction inputDates with
  | nil => exact Or.inl rfl
  | cons d rest ih =>
    by_cases hle : sel ≤ d
    · refine Or.inr ⟨0, ?_⟩
      simp [getFirstAfterSelected, hle]
    · rcases ih with h1 | ⟨i, hi⟩
      · refine Or.inl ?_
        simp [getFirstAfterSelected, hle, h1]
      · refine Or.inr ⟨i + 1, ?_⟩
        have hne : (i : Int) ≠ -1 := by omega
        rw [getFirstAfterSelected, if_neg hle, hi, if_neg hne]
        omega

/-- A non-negative scan result points at an element satisfying the scan's
predicate. -/
theorem getFirstAfterSelected_spec (inputDates : List Int) (sel : Int) :
    ∀ i : Nat, getFirstAfterSelected inputDates sel = (i : Int) →
      ∃ d, inputDates[i]? = some d ∧ sel ≤ d := by
  induction inputDates with
  | nil =>
    intro i h
    simp only [getFirstAfterSelected] at h
    omega
  | cons d rest ih =>
    intro i h
    by_cases hle : sel ≤ d
    · have h0 : i = 0 := by
        rw [getFirstAfterSelected, if_pos hle] at h
        omega
      subst h0
      exact ⟨d, by simp, hle⟩
    · rw [getFirstAfterSelected, if_neg hle] at h
      rcases getFirstAfterSelected_cases rest sel with h1 | ⟨j, hj⟩
      · rw [if_pos h1] at h
        omega
      · have hne : (j : Int) ≠ -1 := by omega
        rw [hj, if_neg hne] at h
        have hij : i = j + 1 := by omega
        subst hij
        obtain ⟨d', hd', hs⟩ := ih j hj
        exact ⟨d', by simpa using hd', hs⟩

/-! ### Behavior of one resolver-loop iteration -/

theorem getD_map_of_getElem? {α β : Type} (f : α → β) (l : List α) (i : Nat) (a : α)
    (h : l[i]? = some a) (dflt : β) : (l.map f).getD i dflt = f a := by
  simp [List.getD, List.getElem?_map, h]

/-- The candidate-date guard is open exactly when the scan found an index. -/
theorem filter_not_isEmpty_of_found (inputDates : List Int) (r : Int) (i : Nat)
    (hfind : getFirstAfterSelected inputDates r = (i : Int)) :
    (inputDates.filter (fun d => decide (r ≤ d))).isEmpty = false := by
  obtain ⟨d, hd, hrd⟩ := getFirstAfterSelected_spec inputDates r i hfind
  have hdmem : d ∈ inputDates := by
    have := List.getElem?_eq_some_iff.mp hd
    obtain ⟨hlt, hval⟩ := this
    exact hval ▸ List.getElem_mem hlt
  have hmem : d ∈ inputDates.filter (fun d => decide (r ≤ d)) :=
    List.mem_filter.mpr ⟨hdmem, by simpa using hrd⟩
  cases hemp : (inputDates.filter (fun d => decide (r ≤ d))).isEmpty with
  | false => rfl
  | true =>
    rw [List.isEmpty_iff] at hemp
    rw [hemp] at hmem
    simp at hmem

/-- Compressed branch of the loop body (pge_runconfig.py lines 463-466): a
requested date resolving to a compressed acquisition at index `i > 0` sets
`output_reference_idx := i` and leaves `extra_reference_date` unchanged. -/
theorem computeReferenceDatesStep_compressed (timeline : List Acquisition)
    (r : Int) (i : Nat) (acq : Acquisition)
    (hfind : getFirstAfterSelected (timeline.map (fun a => a.date)) r = (i : Int))
    (hpos : 0 < i)
    (hget : timeline[i]? = some acq)
    (hcomp : acq.isCompressed = true)
    (st : Nat × Option Int) :
    computeReferenceDatesStep (timeline.map (fun a => a.date))
      (timeline.map (fun a => a.isCompressed)) st r = (i, st.2) := by
  have hempty := filter_not_isEmpty_of_found (timeline.map (fun a => a.date)) r i hfind
  have hne0 : ((i : Int)) ≠ 0 := by omega
  have htn : ((i : Int)).toNat = i := by omega
  have hcompD : (timeline.map (fun a => a.isCompressed)).getD i false = true := by
    rw [getD_map_of_getElem? (fun a => a.isCompressed) timeline i acq hget]
    exact hcomp
  simp only [computeReferenceDatesStep, hempty, Bool.false_eq_true, if_false, hfind,
    hne0, htn, hcompD, if_true]

/-- Regular branch of the loop body (pge_runconfig.py lines 467-472): a
requested date resolving to a regular acquisition at index `i > 0` sets
`extra_reference_date := timeline[i].date` and leaves
`output_reference_idx` unchanged. -/
theorem computeReferenceDatesStep_regular (timeline : List Acquisition)
    (r : Int) (i : Nat) (acq : Acquisition)
    (hfind : getFirstAfterSelected (timeline.map (fun a => a.date)) r = (i : Int))
    (hpos : 0 < i)
    (hget : timeline[i]? = some acq)
    (hcomp : acq.isCompressed = false)
    (st : Nat × Option Int) :
    computeReferenceDatesStep (timeline.map (fun a => a.date))
      (timeline.map (fun a => a.isCompressed)) st r = (st.1, some acq.date) := by
  have hempty := filter_not_isEmpty_of_found (timeline.map (fun a => a.date)) r i hfind
  have hne0 : ((i : Int)) ≠ 0 := by omega
  have htn : ((i : Int)).toNat = i := by omega
  have hcompD : (timeline.map (fun a => a.isCompressed)).getD i false = false := by
    rw [getD_map_of_getElem? (fun a => a.isCompressed) timeline i acq hget]
    exact hcomp
  have hdateD : (timeline.map (fun a => a.date)).getD i 0 = acq.date :=
    getD_map_of_getElem? (fun a => a.date) timeline i acq hget 0
  have hrd : r ≤ acq.date := by
    obtain ⟨d, hd, hrd⟩ := getFirstAfterSelected_spec (timeline.map (fun a => a.date)) r i hfind
    have hdate : (timeline.map (fun a => a.date))[i]? = some acq.date := by
      rw [List.getElem?_map, hget]
      rfl
    rw [hdate] at hd
    cases hd
    exact hrd
  simp only [computeReferenceDatesStep, hempty, Bool.false_eq_true, if_false, hfind,
    hne0, htn, hcompD, hdateD, hrd, if_true]

/-- Resolution with a single requested date is one loop iteration from the
default state. -/
theorem computeReferenceDates_singleton (timeline : List Acquisition) (r : Int) :
    computeReferenceDates timeline [r] =
      computeReferenceDatesStep (timeline.map (fun a => a.date))
        (timeline.map (fun a => a.isCompressed)) (0, none) r := by
  simp [computeReferenceDates, sortedDedup, insertDedup]

/-- C9: resolution with an empty requested-date set returns the default
`(output_reference_idx, extra_reference_date) = (0, None)`, and a single
requested date at or before the first timeline date is skipped, leaving the
same default result. -/
theorem reference_resolution_default_and_skip_first :
    (∀ timeline : List Acquisition, computeReferenceDates timeline [] = (0, none))
    ∧ (∀ (a : Acquisition) (rest : List Acquisition) (r : Int), r ≤ a.date →
        computeReferenceDates (a :: rest) [r] = (0, none)) := by
  constructor
  · intro timeline
    rfl
  · intro a rest r hr
    rw [computeReferenceDates_singleton]
    have h0 : getFirstAfterSelected (a.date :: rest.map (fun x => x.date)) r = 0 := by
      simp [getFirstAfterSelected, hr]
    simp [computeReferenceDatesStep, h0, hr, List.filter_cons]

/-- C9 witness: the default and the skip-first behavior at a concrete
timeline and requested date. -/
theorem reference_resolution_default_and_skip_first_witness :
    computeReferenceDates [⟨5, false⟩, ⟨9, true⟩] [] = (0, none)
    ∧ computeReferenceDates [⟨5, false⟩, ⟨9, true⟩] [3] = (0, none) :=
  ⟨reference_resolution_default_and_skip_first.1 [⟨5, false⟩, ⟨9, true⟩],
   reference_resolution_default_and_skip_first.2 ⟨5, false⟩ [⟨9, true⟩] 3 (by decide)⟩

/-- C8: a requested date whose first at-or-after timeline index `i` is
positive and regular (not compressed) sets
`extra_reference_date = timeline[i].date` and leaves
`output_reference_idx` unchanged from its value before that request — in
particular, resolving that single request yields `(0, timeline[i].date)`. -/
theorem reference_resolution_regular_branch (timeline : List Acquisition)
    (r : Int) (i : Nat) (acq : Acquisition)
    (hfind : getFirstAfterSelected (timeline.map (fun a => a.date)) r = (i : Int))
    (hpos : 0 < i)
    (hget : timeline[i]? = some acq)
    (hcomp : acq.isCompressed = false) :
    (∀ st : Nat × Option Int,
      computeReferenceDatesStep (timeline.map (fun a => a.date))
        (timeline.map (fun a => a.isCompressed)) st r = (st.1, some acq.date))
    ∧ computeReferenceDates timeline [r] = (0, some acq.date) := by
  constructor
  · intro st
    exact computeReferenceDatesStep_regular timeline r i acq hfind hpos hget hcomp st
  · rw [computeReferenceDates_singleton]
    exact computeReferenceDatesStep_regular timeline r i acq hfind hpos hget hcomp (0, none)

/-- C8 witness: timeline `[10(reg), 20(reg), 30(reg)]`, request `15` lands
on the regular entry at index 1, yielding extra reference date `20` with the
output index left at the default `0`. -/
theorem reference_resolution_regular_branch_witness :
    computeReferenceDatesStep [10, 20, 30] [false, false, false] (0, none) 15 =
      (0, some 20)
    ∧ computeReferenceDates [⟨10, false⟩, ⟨20, false⟩, ⟨30, false⟩] [15] =
      (0, some 20) := by
  have h := reference_resolution_regular_branch
    [⟨10, false⟩, ⟨20, false⟩, ⟨30, false⟩] 15 1 ⟨20, false⟩ (by decide) (by decide)
    (by decide) rfl
  exact ⟨h.1 (0, none), h.2⟩

/-- C1: for the timeline `[2020-01-01 reg, 2020-02-01 reg,
2020-03-01 compressed, 2020-04-01 reg]` and requested dates
`{2020-02-15, 2020-03-01}`, resolution returns
`output_reference_idx = 2` and `extra_reference_date = None`; and in
general a requested date whose first at-or-after timeline index `i` is
positive and compressed sets `output_reference_idx := i` without setting an
extra reference date (the loop state's extra field is passed through), with
later sorted requests overwriting earlier results field-wise via the fold. -/
theorem reference_resolution_compressed_branch :
    computeReferenceDates
      [⟨20200101, false⟩, ⟨20200201, false⟩, ⟨20200301, true⟩, ⟨20200401, false⟩]
      [20200215, 20200301] = (2, none)
    ∧ ∀ (timeline : List Acquisition) (r : Int) (i : Nat) (acq : Acquisition),
        getFirstAfterSelected (timeline.map (fun a => a.date)) r = (i : Int) →
        0 < i →
        timeline[i]? = some acq →
        acq.isCompressed = true →
        (∀ st : Nat × Option Int,
          computeReferenceDatesStep (timeline.map (fun a => a.date))
            (timeline.map (fun a => a.isCompressed)) st r = (i, st.2))
        ∧ computeReferenceDates timeline [r] = (i, none) := by
  constructor
  · rfl
  · intro timeline r i acq hfind hpos hget hcomp
    constructor
    · intro st
      exact computeReferenceDatesStep_compressed timeline r i acq hfind hpos hget hcomp st
    · rw [computeReferenceDates_singleton]
      exact computeReferenceDatesStep_compressed timeline r i acq hfind hpos hget hcomp
        (0, none)

/-- C1 witness: the compressed branch applied at the scenario timeline with
the single request `2020-02-15` resolving to the compressed entry at
index 2. -/
theorem reference_resolution_compressed_branch_witness :
    computeReferenceDates
      [⟨20200101, false⟩, ⟨20200201, false⟩, ⟨20200301, true⟩, ⟨20200401, false⟩]
      [20200215] = (2, none) :=
  ((reference_resolution_compressed_branch.2
    [⟨20200101, false⟩, ⟨20200201, false⟩, ⟨20200301, true⟩, ⟨20200401, false⟩]
    20200215 2 ⟨20200301, true⟩ (by decide) (by decide) (by decide) rfl).2)

/-! ## Frame/burst consistency check in `RunConfig.to_workflow`
(src/disp_s1/pge_runconfig.py, lines 294-301). -/

/-- The fixed message of the `ValueError` raised on frame/burst mismatch. -/
def frameMismatchMessage : String := "The CSLC data and frame id do not match"

/-- Shallow embedding of the consistency check in `to_workflow`
(pge_runconfig.py lines 294-301):

    frame_burst_ids = set(get_burst_ids_for_frame(frame_id=..., json_file=...))
    data_burst_ids = set(group_by_burst(cslc_file_list).keys())
    mismatched_bursts = data_burst_ids - frame_burst_ids
    if mismatched_bursts:
        raise ValueError("The CSLC data and frame id do not match")

Sets are modelled as lists of burst-id strings; the truthiness test on the
set difference is non-emptiness of the filtered list. The raised
`ValueError` carries only the fixed message string. -/
def checkFrameConsistency (dataBurstIds frameBurstIds : List String) :
    Except String Unit :=
  let mismatchedBursts := dataBurstIds.filter (fun b => decide (b ∉ frameBurstIds))
  if mismatchedBursts.isEmpty then .ok () else .error frameMismatchMessage

/-- Naive substring test on character lists, used to state what the raised
error message does (not) mention. -/
def listIsInfix (sub : List Char) : List Char → Bool
  | [] => sub.isEmpty
  | c :: rest => sub.isPrefixOf (c :: rest) || listIsInfix sub rest

/-- C5 counterexample: with data burst ids `{T1, T2}` against the registry
set `{T1}` for the frame, the check raises — but the exception's message is
the fixed string `The CSLC data and frame id do not match`, which does not
contain the offending burst identifier `T2` (nor any identifier), refuting
the part of the claim that the raised exception carries the offending
identifiers. -/
theorem frame_mismatch_message_counterexample :
    checkFrameConsistency ["T1", "T2"] ["T1"] = .error frameMismatchMessage
    ∧ listIsInfix "T2".toList frameMismatchMessage.toList = false
    ∧ listIsInfix "T1".toList frameMismatchMessage.toList = false :=
  ⟨rfl, rfl, rfl⟩

/-- C5 (amended): `to_workflow`'s consistency check raises if and only if
the data burst-id set contains an identifier outside the registry's set for
the frame (no raise when it is a subset) — but the raised `ValueError`
carries only a fixed message without the offending identifiers. -/
theorem frame_mismatch_check_behavior (dataBurstIds frameBurstIds : List String) :
    (checkFrameConsistency dataBurstIds frameBurstIds = .error frameMismatchMessage
      ↔ ∃ b ∈ dataBurstIds, b ∉ frameBurstIds)
    ∧ (checkFrameConsistency dataBurstIds frameBurstIds = .ok ()
      ↔ ∀ b ∈ dataBurstIds, b ∈ frameBurstIds) := by
  have hiff : (dataBurstIds.filter (fun b => decide (b ∉ frameBurstIds))).isEmpty = true
      ↔ ∀ b ∈ dataBurstIds, b ∈ frameBurstIds := by
    rw [List.isEmpty_iff, List.filter_eq_nil_iff]
    constructor
    · intro h b hb
      have := h b hb
      simpa using this
    · intro h b hb
      simpa using h b hb
  cases hemp : (dataBurstIds.filter (fun b => decide (b ∉ frameBurstIds))).isEmpty with
  | true =>
    have hall : ∀ b ∈ dataBurstIds, b ∈ frameBurstIds := hiff.mp hemp
    have hres : checkFrameConsistency dataBurstIds frameBurstIds = .ok () := by
      simp only [checkFrameConsistency]
      rw [hemp]
      rfl
    rw [hres]
    constructor
    · constructor
      · intro h
        exact absurd h (by simp)
      · rintro ⟨b, hb, hnb⟩
        exact absurd (hall b hb) hnb
    · exact ⟨fun _ => hall, fun _ => rfl⟩
  | false =>
    have hex : ∃ b ∈ dataBurstIds, b ∉ frameBurstIds := by
      by_contra hc
      push_neg at hc
      rw [hiff.mpr hc] at hemp
      simp at hemp
    have hres : checkFrameConsistency dataBurstIds frameBurstIds =
        .error frameMismatchMessage := by
      simp only [checkFrameConsistency]
      rw [hemp]
      rfl
    rw [hres]
    constructor
    · exact ⟨fun _ => hex, fun _ => rfl⟩
    · constructor
      · intro h
        exact absurd h (by simp)
      · intro hall
        obtain ⟨b, hb, hnb⟩ := hex
        exact absurd (hall b hb) hnb

/-! ## Recommended quality mask (src/disp_s1/product.py, lines 247-267). -/

/-- Per-pixel recommended-mask computation from `create_output_product`
(product.py lines 257-267), applied to the four co-registered raster values
at one pixel:

    is_water = water_mask_data == 0
    is_zero_conncomp = conncomps == 0
    bad_temporal_coherence = temporal_coherence < 0.6
    bad_similarity = similarity < 0.5
    is_low_quality = bad_temporal_coherence & bad_similarity
    bad_pixel_mask = is_water | is_zero_conncomp | is_low_quality
    recommended_mask = ~bad_pixel_mask

Raster samples are rationals; the float thresholds 0.6 and 0.5 are exact
rationals here. -/
def recommendedMaskPixel (waterMaskVal conncompVal : Int)
    (temporalCoherenceVal similarityVal : ℚ) : Bool :=
  let is_water := waterMaskVal == 0
  let is_zero_conncomp := conncompVal == 0
  let bad_temporal_coherence := decide (temporalCoherenceVal < 6/10)
  let bad_similarity := decide (similarityVal < 5/10)
  let is_low_quality := bad_temporal_coherence && bad_similarity
  let bad_pixel_mask := is_water || is_zero_conncomp || is_low_quality
  !bad_pixel_mask

/-- The recommended mask over four co-registered rasters on one grid. -/
def recommendedMask (rows cols : Nat)
    (waterMask conncomps : Fin rows → Fin cols → Int)
    (temporalCoherence similarity : Fin rows → Fin cols → ℚ)
    (i : Fin rows) (j : Fin cols) : Bool :=
  recommendedMaskPixel (waterMask i j) (conncomps i j) (temporalCoherence i j)
    (similarity i j)

/-- C6: at every pixel the recommended mask equals NOT (is_water OR
connected_components == 0 OR (temporal_coherence < 0.6 AND
similarity < 0.5)); in particular a pixel with weak temporal coherence but
similarity >= 0.5 — or weak similarity but temporal coherence >= 0.6 — is
not flagged bad by the low-quality criterion alone. -/
theorem recommended_mask_composition (rows cols : Nat)
    (waterMask conncomps : Fin rows → Fin cols → Int)
    (temporalCoherence similarity : Fin rows → Fin cols → ℚ)
    (i : Fin rows) (j : Fin cols) :
    (recommendedMask rows cols waterMask conncomps temporalCoherence similarity i j = true
      ↔ ¬(waterMask i j = 0 ∨ conncomps i j = 0 ∨
          (temporalCoherence i j < 6/10 ∧ similarity i j < 5/10)))
    ∧ (waterMask i j ≠ 0 → conncomps i j ≠ 0 → 5/10 ≤ similarity i j →
        recommendedMask rows cols waterMask conncomps temporalCoherence similarity i j
          = true)
    ∧ (waterMask i j ≠ 0 → conncomps i j ≠ 0 → 6/10 ≤ temporalCoherence i j →
        recommendedMask rows cols waterMask conncomps temporalCoherence similarity i j
          = true) := by
  have hmain :
      recommendedMask rows cols waterMask conncomps temporalCoherence similarity i j = true
        ↔ ¬(waterMask i j = 0 ∨ conncomps i j = 0 ∨
            (temporalCoherence i j < 6/10 ∧ similarity i j < 5/10)) := by
    simp only [recommendedMask, recommendedMaskPixel, Bool.not_eq_true',
      Bool.or_eq_false_iff, beq_eq_false_iff_ne, Bool.and_eq_false_iff,
      decide_eq_false_iff_not, not_lt, not_or, Bool.not_eq_false]
    constructor
    · rintro ⟨⟨hw, hc⟩, hor⟩
      refine ⟨hw, hc, fun hab => ?_⟩
      rcases hor with h1 | h2
      · exact absurd hab.1 (not_lt.mpr h1)
      · exact absurd hab.2 (not_lt.mpr h2)
    · rintro ⟨hw, hc, hni⟩
      refine ⟨⟨hw, hc⟩, ?_⟩
      by_cases hlt : temporalCoherence i j < 6/10
      · exact Or.inr (not_lt.mp fun hs => hni ⟨hlt, hs⟩)
      · exact Or.inl (not_lt.mp hlt)
  refine ⟨hmain, ?_, ?_⟩
  · intro hw hc hs
    rw [hmain]
    push_neg
    exact ⟨hw, hc, fun _ => hs⟩
  · intro hw hc ht
    rw [hmain]
    push_neg
    exact ⟨hw, hc, fun h => absurd h (not_lt.mpr ht)⟩

/-- C6 witness: a land pixel with a valid connected component, weak
temporal coherence (0.2) but strong similarity (0.7) is kept by the
recommended mask. -/
theorem recommended_mask_composition_witness :
    recommendedMask 1 1 (fun _ _ => 1) (fun _ _ => 3) (fun _ _ => 2/10)
      (fun _ _ => 7/10) 0 0 = true :=
  (recommended_mask_composition 1 1 (fun _ _ => 1) (fun _ _ => 3) (fun _ _ => 2/10)
    (fun _ _ => 7/10) 0 0).2.1 (by decide) (by decide) (by norm_num)

/-! ## Auxiliary computations in `create_output_product`
(src/disp_s1/product.py, lines 191-217 and 369-386). -/

/-- The corrections-relevant outcome of product assembly's auxiliary phase:
the baseline layer stored under `corrections["baseline"]`, the footprint
WKT string used for the identification group, and the optional
`corrections["solid_earth"]` entry. `β` abstracts baseline rasters and `σ`
solid-earth rasters (external numeric arrays, out of scope). -/
structure AuxCorrections (β σ : Type) where
  baseline : β
  footprintWkt : String
  solidEarth : Option σ

/-- Shallow embedding of the auxiliary-computation portion of
`create_output_product` (product.py lines 191-216 and 369-386). The three
external computations are oracles whose outcome (`.ok value` or a raised
exception `.error ()`) is a parameter:

  - `compute_baselines` is wrapped in `try/except Exception`: on exception
    the baseline becomes the fixed fallback `np.zeros((100, 100))`
    (`zeroBaseline` here);
  - `extract_footprint` is wrapped in `try/except Exception`: on exception
    the footprint WKT becomes the empty string;
  - `calculate_solid_earth_tides_correction` (lines 369-386) runs only when
    both line-of-sight files are not None (`losFilesPresent`) and is NOT
    wrapped: a raised exception propagates out of `create_output_product`. -/
def createOutputProductAux {β σ : Type} (zeroBaseline : β)
    (baselineResult : Except Unit β) (footprintResult : Except Unit String)
    (losFilesPresent : Bool) (solidEarthResult : Except Unit σ) :
    Except Unit (AuxCorrections β σ) :=
  let baseline_arr :=
    match baselineResult with
    | .ok b => b
    | .error _ => zeroBaseline
  let footprint_wkt :=
    match footprintResult with
    | .ok s0 => s0
    | .error _ => ""
  if losFilesPresent then
    match solidEarthResult with
    | .ok se => .ok ⟨baseline_arr, footprint_wkt, some se⟩
    | .error e => .error e
  else
    .ok ⟨baseline_arr, footprint_wkt, none⟩

/-- C2 counterexample: with the baseline and footprint computations
succeeding and only the solid-earth-tide computation raising (line-of-sight
inputs present), `create_output_product` does not complete: the exception
propagates, refuting the claim that an exception in any of the three
auxiliary computations is caught and replaced by a degraded default. -/
theorem create_output_product_solid_earth_abort_counterexample :
    createOutputProductAux (0 : Int) (.ok 5) (.ok "POLYGON((0 0,1 1))") true
      (.error () : Except Unit Int) = .error ()
    ∧ ∀ c : AuxCorrections Int Int,
        createOutputProductAux (0 : Int) (.ok 5) (.ok "POLYGON((0 0,1 1))") true
          (.error () : Except Unit Int) ≠ .ok c := by
  refine ⟨rfl, fun c h => ?_⟩
  rw [(rfl : createOutputProductAux (0 : Int) (.ok 5) (.ok "POLYGON((0 0,1 1))") true
    (.error () : Except Unit Int) = .error ())] at h
  exact Except.noConfusion h

/-- C2 (amended): exceptions in the perpendicular-baseline and footprint
computations are caught and replaced by the documented degraded defaults
(the fixed zero-filled fallback raster, the empty string), and the
solid-earth entry is omitted from the corrections group when line-of-sight
inputs are absent, so assembly completes in those cases; but when the
line-of-sight inputs are present and the solid-earth-tide computation
itself raises, the exception propagates and aborts assembly. -/
theorem create_output_product_aux_isolation {β σ : Type} (zeroBaseline : β)
    (baselineResult : Except Unit β) (footprintResult : Except Unit String)
    (solidEarthResult : Except Unit σ) :
    (createOutputProductAux zeroBaseline baselineResult footprintResult false
        solidEarthResult =
      .ok ⟨(match baselineResult with | .ok b => b | .error _ => zeroBaseline),
           (match footprintResult with | .ok s0 => s0 | .error _ => ""), none⟩)
    ∧ (∀ se, solidEarthResult = .ok se →
        createOutputProductAux zeroBaseline baselineResult footprintResult true
            solidEarthResult =
          .ok ⟨(match baselineResult with | .ok b => b | .error _ => zeroBaseline),
               (match footprintResult with | .ok s0 => s0 | .error _ => ""), some se⟩)
    ∧ (solidEarthResult = .error () →
        createOutputProductAux zeroBaseline baselineResult footprintResult true
            solidEarthResult = .error ()) := by
  refine ⟨?_, ?_, ?_⟩
  · simp [createOutputProductAux]
  · intro se hse
    simp [createOutputProductAux, hse]
  · intro hse
    simp [createOutputProductAux, hse]

/-- C2 witness: failing baseline and footprint computations degrade to the
zero fallback and empty string while assembly completes with the
solid-earth layer present. -/
theorem create_output_product_aux_isolation_witness :
    createOutputProductAux (0 : Int) (.error ()) (.error ()) true
      (.ok (7 : Int)) = .ok ⟨0, "", some 7⟩ := by
  have h := (create_output_product_aux_isolation (0 : Int) (.error ())
    (.error ()) (.ok (7 : Int))).2.1 7 rfl
  simpa using h

/-! ## Compressed SLC product creation
(src/disp_s1/product.py, lines 1510-1567). -/

/-- One CSLC inventory entry, reduced to the attributes the matching logic
reads: the burst id parsed from the file name, the first date parsed from
the file name (`get_dates(f)[0]`), and a distinguishing path id. -/
structure CslcFile where
  burstId : String
  date : Int
  pathId : Nat
deriving DecidableEq, Repr

/-- Modelled from the spec: `opera_utils.filter_by_date` (an external
collaborator of this repository, not under src/) keeps the files whose
parsed date is among the given dates. -/
def filter_by_date (files : List CslcFile) (dates : List Int) : List CslcFile :=
  files.filter (fun f => decide (f.date ∈ dates))

/-- Modelled from the spec: `opera_utils.filter_by_burst_id` (an external
collaborator, not under src/) keeps the files with the given burst id. -/
def filter_by_burst_id (files : List CslcFile) (burstId : String) : List CslcFile :=
  files.filter (fun f => decide (f.burstId = burstId))

/-- The `CompressedSLCInfo` named tuple (product.py lines 1306-1312). -/
structure CompressedSLCInfo where
  burstId : String
  compSlcFile : CslcFile
  outputDir : String
  operaCslcFile : CslcFile
deriving DecidableEq, Repr

/-- Sequential collection of per-element `Except` results: the semantics of
building a list from fallible steps where the first raised exception
propagates (a Python loop that appends, and also
`list(executor.map(...))`, which re-raises the first task exception when
the results are iterated). -/
def exceptMapList {α β : Type} (f : α → Except Unit β) :
    List α → Except Unit (List β)
  | [] => .ok []
  | x :: xs =>
    match f x with
    | .error e => .error e
    | .ok y =>
      match exceptMapList f xs with
      | .error e => .error e
      | .ok ys => .ok (y :: ys)

/-- One iteration of the matching loop of `create_compressed_products`
(product.py lines 1540-1553):

    ref_date = get_dates(comp_slc_file)[0]
    valid_date_files = filter_by_date(cslc_file_list, [ref_date])
    matching_files = filter_by_burst_id(valid_date_files, burst_id)
    cur_opera_cslc = matching_files[-1]

`matching_files[-1]` is the last match when one exists and raises
`IndexError` (`.error ()`) on an empty list. -/
def resolveOneCompressed (cslcFileList : List CslcFile) (outputDir : String)
    (burstId : String) (compSlcFile : CslcFile) : Except Unit CompressedSLCInfo :=
  let refDate := compSlcFile.date
  let validDateFiles := filter_by_date cslcFileList [refDate]
  let matchingFiles := filter_by_burst_id validDateFiles burstId
  match matchingFiles.getLast? with
  | some curOperaCslc => .ok ⟨burstId, compSlcFile, outputDir, curOperaCslc⟩
  | none => .error ()

/-- The full task-resolution loop over `comp_slc_dict.items()`
(product.py lines 1538-1554), producing the `compressed_slc_infos` list or
the first raised `IndexError`. -/
def resolveCompressedInfos (compSlcDict : List (String × List CslcFile))
    (outputDir : String) (cslcFileList : List CslcFile) :
    Except Unit (List CompressedSLCInfo) :=
  match exceptMapList
      (fun p => exceptMapList (resolveOneCompressed cslcFileList outputDir p.1) p.2)
      compSlcDict with
  | .error e => .error e
  | .ok lists => .ok lists.flatten

/-- Shallow embedding of `create_compressed_products` (product.py lines
1510-1567): resolve every (burst, compressed-file) pair to a task input,
then run all tasks and collect results via
`list(executor.map(process_compressed_slc, compressed_slc_infos))`.
`runTask` is the external, file-writing `process_compressed_slc` oracle,
returning the output path or a raised exception. -/
def create_compressed_products {π : Type} (compSlcDict : List (String × List CslcFile))
    (outputDir : String) (cslcFileList : List CslcFile)
    (runTask : CompressedSLCInfo → Except Unit π) : Except Unit (List π) :=
  match resolveCompressedInfos compSlcDict outputDir cslcFileList with
  | .error e => .error e
  | .ok compressedSlcInfos => exceptMapList runTask compressedSlcInfos

/-! ### Collection lemmas -/

theorem exceptMapList_error_of_mem {α β : Type} (f : α → Except Unit β) (l : List α)
    (x : α) (hx : x ∈ l) (hf : f x = .error ()) : exceptMapList f l = .error () := by
  induction l with
  | nil => cases hx
  | cons y ys ih =>
    cases hx with
    | head => simp [exceptMapList, hf]
    | tail _ hmem =>
      cases hfy : f y with
      | error e =>
        cases e
        simp [exceptMapList, hfy]
      | ok b =>
        simp [exceptMapList, hfy, ih hmem]

theorem exceptMapList_ok_of_forall {α β : Type} (f : α → Except Unit β) (l : List α)
    (h : ∀ x ∈ l, ∃ y, f x = .ok y) : ∃ ys, exceptMapList f l = .ok ys := by
  induction l with
  | nil => exact ⟨[], rfl⟩
  | cons x xs ih =>
    obtain ⟨y, hy⟩ := h x (List.mem_cons_self x xs)
    obtain ⟨ys, hys⟩ := ih (fun z hz => h z (List.mem_cons_of_mem _ hz))
    exact ⟨y :: ys, by simp [exceptMapList, hy, hys]⟩

/-- C10: if some (burst_id, compressed-file) pair in the work dictionary
has no inventory file matching both the compressed file's reference date
and its burst id, `create_compressed_products` raises an uncaught
`IndexError` (from `matching_files[-1]` on an empty list) while building
the task list — the whole batch aborts with that error regardless of what
any task would do, i.e. before any task output can be produced. -/
theorem create_compressed_products_empty_match_aborts
    (compSlcDict : List (String × List CslcFile)) (outputDir : String)
    (cslcFileList : List CslcFile) (burstId : String) (files : List CslcFile)
    (comp : CslcFile)
    (hdict : (burstId, files) ∈ compSlcDict) (hcomp : comp ∈ files)
    (hempty : filter_by_burst_id (filter_by_date cslcFileList [comp.date]) burstId
      = []) :
    ∀ (π : Type) (runTask : CompressedSLCInfo → Except Unit π),
      create_compressed_products compSlcDict outputDir cslcFileList runTask
        = .error () := by
  intro π runTask
  have hone : resolveOneCompressed cslcFileList outputDir burstId comp = .error () := by
    simp [resolveOneCompressed, hempty]
  have hmid : exceptMapList (resolveOneCompressed cslcFileList outputDir burstId) files
      = .error () :=
    exceptMapList_error_of_mem _ files comp hcomp hone
  have houter : exceptMapList
      (fun p => exceptMapList (resolveOneCompressed cslcFileList outputDir p.1) p.2)
      compSlcDict = .error () :=
    exceptMapList_error_of_mem _ compSlcDict (burstId, files) hdict hmid
  have hres : resolveCompressedInfos compSlcDict outputDir cslcFileList = .error () := by
    unfold resolveCompressedInfos
    rw [houter]
  unfold create_compressed_products
  rw [hres]

/-- C10 witness: a dictionary entry whose compressed file has no
date-and-burst match in the inventory aborts the whole batch even though
the (never-reached) task behavior would succeed. -/
theorem create_compressed_products_empty_match_aborts_witness :
    create_compressed_products [("b1", [⟨"b1", 5, 0⟩])] "out" [⟨"b2", 5, 1⟩]
      (fun _ => Except.ok (0 : Nat)) = .error () :=
  create_compressed_products_empty_match_aborts
    [("b1", [⟨"b1", 5, 0⟩])] "out" [⟨"b2", 5, 1⟩] "b1" [⟨"b1", 5, 0⟩] ⟨"b1", 5, 0⟩
    (List.mem_singleton.mpr rfl) (List.mem_singleton.mpr rfl) rfl
    Nat (fun _ => Except.ok (0 : Nat))

/-- C4 counterexample: a batch of two resolvable tasks where the first
task raises and the second would succeed. `create_compressed_products`
returns the raised exception itself — the sibling's success is discarded
and no collected failed-task list is surfaced to the caller, refuting the
claim. -/
theorem create_compressed_products_failure_counterexample :
    create_compressed_products
      [("b1", [⟨"b1", 1, 0⟩]), ("b2", [⟨"b2", 1, 1⟩])] "out"
      [⟨"b1", 1, 10⟩, ⟨"b2", 1, 11⟩]
      (fun info => if info.burstId = "b1" then .error () else .ok (0 : Nat))
      = .error ()
    ∧ ∀ res : List Nat,
        create_compressed_products
          [("b1", [⟨"b1", 1, 0⟩]), ("b2", [⟨"b2", 1, 1⟩])] "out"
          [⟨"b1", 1, 10⟩, ⟨"b2", 1, 11⟩]
          (fun info => if info.burstId = "b1" then .error () else .ok (0 : Nat))
          ≠ .ok res := by
  have h1 : create_compressed_products
      [("b1", [⟨"b1", 1, 0⟩]), ("b2", [⟨"b2", 1, 1⟩])] "out"
      [⟨"b1", 1, 10⟩, ⟨"b2", 1, 11⟩]
      (fun info => if info.burstId = "b1" then .error () else .ok (0 : Nat))
      = .error () := rfl
  refine ⟨h1, fun res h => ?_⟩
  rw [h1] at h
  exact Except.noConfusion h

/-- C4 (amended): `create_compressed_products` collects results with
`list(executor.map(process_compressed_slc, ...))`, so the first task
exception is re-raised and propagates out of the function; no failed-task
list is collected. Only when every task succeeds does the function return
the list of task outputs. -/
theorem create_compressed_products_failure_propagation {π : Type}
    (compSlcDict : List (String × List CslcFile)) (outputDir : String)
    (cslcFileList : List CslcFile) (runTask : CompressedSLCInfo → Except Unit π)
    (infos : List CompressedSLCInfo)
    (hres : resolveCompressedInfos compSlcDict outputDir cslcFileList = .ok infos) :
    ((∃ i ∈ infos, runTask i = .error ()) →
      create_compressed_products compSlcDict outputDir cslcFileList runTask
        = .error ())
    ∧ ((∀ i ∈ infos, ∃ y, runTask i = .ok y) →
      ∃ ys, create_compressed_products compSlcDict outputDir cslcFileList runTask
        = .ok ys) := by
  constructor
  · rintro ⟨i, hi, hfail⟩
    unfold create_compressed_products
    rw [hres]
    exact exceptMapList_error_of_mem runTask infos i hi hfail
  · intro hall
    unfold create_compressed_products
    rw [hres]
    exact exceptMapList_ok_of_forall runTask infos hall

/-- C4 witness: with one resolvable task whose execution raises, the batch
result is the propagated exception. -/
theorem create_compressed_products_failure_propagation_witness :
    create_compressed_products [("b1", [⟨"b1", 1, 0⟩])] "out" [⟨"b1", 1, 10⟩]
      (fun _ => (Except.error () : Except Unit Nat)) = .error () :=
  (create_compressed_products_failure_propagation
    [("b1", [⟨"b1", 1, 0⟩])] "out" [⟨"b1", 1, 10⟩]
    (fun _ => (Except.error () : Except Unit Nat))
    [⟨"b1", ⟨"b1", 1, 0⟩, "out", ⟨"b1", 1, 10⟩⟩] rfl).1
    ⟨⟨"b1", ⟨"b1", 1, 0⟩, "out", ⟨"b1", 1, 10⟩⟩, List.mem_singleton.mpr rfl, rfl⟩

end DispS1